import Mathlib

/-!
Verification of the capture-orchestration and path-allocation subsystem of
`src/app.py` (ImageCaptureApp).

The Python code is shallowly embedded:

* Python strings are `String` (a wrapper around `List Char`), and the
  `os.path` primitives used by the code (`split`, `splitext`, `join`,
  `exists`) are translated below from their CPython `posixpath`
  implementations, specialised to `os.sep = "/"` (the platform the app
  runs on).
* The filesystem is a value of the `FS` structure: the list of paths that
  exist plus a list of paths whose status cannot be statted.  CPython's
  `os.path.exists` returns `False` both for missing paths and for paths
  on which `os.stat` raises (e.g. permission denied); `pyExists` therefore
  only consults the `present` list.
* The single regex used by the code,
  `re.match("(.*)(?=\((?P<num>[0-9]+)\))", basename)`, is translated by
  `reGroupMatch`: a greedy `.*` (which cannot cross a newline) followed by
  a lookahead for `(<digits>)`, so the match (when any) takes the prefix
  before the last `(<digits>)` marker that lies before the first newline,
  and `num` is the full digit run of that marker.
* `PicPath` instance attributes are the fields of the `PicPath` structure;
  the class-level variables written by the property setters
  (`PicPath.current_filepath`, `PicPath.current_filename`,
  `PicPath.default_basename`, `PicPath.default_filename`) are the fields
  of `ClassVars`.  Property setters become functions returning the updated
  pair.
* The unbounded `while os.path.exists(path)` loop of
  `make_filepath_unique` is embedded with fuel `fs.present.length + 1`.
  The loop inspects the (finite) filesystem only through `os.path.exists`,
  and `captureLoop_not_mem` below shows that with this fuel the loop has
  already reached a non-existing candidate, which is exactly the exit
  condition of the Python loop, so the fuelled function computes the same
  path the Python loop returns.
* The Qt worker machinery (`Worker.run` and the signal wiring installed by
  `CameraControls.capture_button_clicked`) is embedded by the list of
  signals a worker emits for a given outcome of the wrapped callback, and
  by the predicate "`preview.do_capture` gets invoked", which by the
  installed connections holds exactly when the `finished` signal is
  emitted (autofocus branch) or immediately (no-autofocus branch).
-/

/-! ## Decimal rendering of naturals (Python `str(num)` / `int(digits)`) -/

/-- The character for a decimal digit `d < 10`, i.e. `chr(48 + d)`. -/
def decDigitChar (d : Nat) : Char := Char.ofNat (48 + d)

/-- The decimal digit characters of `n`, least significant first; the
first argument is fuel (any value `≥ n` is enough). -/
def decCharsRev : Nat → Nat → List Char
  | 0, _ => []
  | fuel + 1, n => if n = 0 then [] else decDigitChar (n % 10) :: decCharsRev fuel (n / 10)

/-- Python `str(n)` for a non-negative `int`: the usual decimal rendering. -/
def natStr (n : Nat) : String :=
  if n = 0 then "0" else ⟨(decCharsRev n n).reverse⟩

/-- Python `int(s)` for a string of decimal digits: fold the digits in. -/
def digitsVal (l : List Char) : Nat :=
  l.foldl (fun a c => a * 10 + (c.toNat - 48)) 0

/-! ## The `os.path` primitives used by `app.py` (posixpath, `sep = "/"`) -/

/-- `s.startswith("/")` — examine the first character. -/
def startsWithSlash (s : String) : Bool :=
  match s.data with
  | c :: _ => c == '/'
  | [] => false

/-- `s.endswith("/")` — examine the last character. -/
def endsWithSlash (s : String) : Bool :=
  match s.data.getLast? with
  | some c => c == '/'
  | none => false

/-- One step of `posixpath.join`: how `path` absorbs the next component `b`. -/
def pyJoin2 (path b : String) : String :=
  if startsWithSlash b then b
  else if path = "" || endsWithSlash path then path ++ b
  else path ++ "/" ++ b

/-- `os.path.join(a, *ps)` (posixpath). The code always passes
`os.path.sep` as the first argument. -/
def pyJoin (a : String) (ps : List String) : String := ps.foldl pyJoin2 a

/-- `str.rstrip("/")` on a character list. -/
def dropTrailingSlashes (l : List Char) : List Char :=
  (l.reverse.dropWhile (fun c => c == '/')).reverse

/-- `posixpath.split(p)`: cut after the last `"/"`; the head keeps its
trailing slashes only when it consists of nothing but slashes. -/
def pySplit (p : String) : String × String :=
  let l := p.data
  let tailLen := (l.reverse.takeWhile (fun c => c != '/')).length
  let head := l.take (l.length - tailLen)
  let tl := l.drop (l.length - tailLen)
  let head := if head.any (fun c => c != '/') then dropTrailingSlashes head else head
  (⟨head⟩, ⟨tl⟩)

/-- `posixpath.splitext(p)`: split at the last dot of the final path
component, unless every character before that dot (within the component)
is itself a dot (leading-dot names such as `".bashrc"` are not split). -/
def pySplitExt (p : String) : String × String :=
  let l := p.data
  let base := (l.reverse.takeWhile (fun c => c != '/')).reverse
  let afterDot := base.reverse.takeWhile (fun c => c != '.')
  if afterDot.length = base.length then (p, "")
  else
    let namePart := base.take (base.length - afterDot.length - 1)
    if namePart.all (fun c => c == '.') then (p, "")
    else (⟨l.take (l.length - afterDot.length - 1)⟩, ⟨'.' :: afterDot.reverse⟩)

/-! ## The filesystem -/

/-- The filesystem visible to the program: the paths that exist, and the
paths for which `os.stat` raises (e.g. permission denied). -/
structure FS where
  present : List String
  unreadable : List String
deriving Repr, DecidableEq

/-- `os.path.exists(p)` against a list of existing paths. -/
def pyExistsL (present : List String) (p : String) : Bool :=
  decide (p ∈ present)

/-- `os.path.exists(p)`: returns `False` when the path is missing *and*
when it cannot be statted — CPython swallows the `OSError`. -/
def pyExists (fs : FS) (p : String) : Bool := pyExistsL fs.present p

/-! ## The regex `(.*)(?=\((?P<num>[0-9]+)\))` (app.py line 263) -/

/-- Does the lookahead `\((?P<num>[0-9]+)\)` succeed at offset `i` of the
stem?  If so, return the value of the digit run. -/
def markerAt (l : List Char) (i : Nat) : Option Nat :=
  match l.drop i with
  | '(' :: rest =>
    let digs := rest.takeWhile (fun c => c.isDigit)
    if digs.length = 0 then none
    else
      match rest.drop digs.length with
      | ')' :: _ => some (digitsVal digs)
      | _ => none
  | _ => none

/-- `re.match("(.*)(?=\((?P<num>[0-9]+)\))", s)`: a greedy dot cannot
cross a newline, so the match takes the longest prefix (before the first
newline) that is followed by a `(<digits>)` marker.  Returns
`(group(1), int(group("num")))` on success. -/
def reGroupMatch (s : String) : Option (String × Nat) :=
  (((List.range s.data.length).filter
      (fun i => !(s.data.take i).contains (Char.ofNat 10)
                 && (markerAt s.data i).isSome)).getLast?).map
    (fun i => (⟨s.data.take i⟩, (markerAt s.data i).getD 0))

/-! ## `PicPath`: instance state, class-level state, property setters -/

/-- The instance attributes of a `PicPath` object
(`_basename`, `_fileext`, `_filename`, `_directory`, `_filepath`). -/
structure PicPath where
  basename : String
  fileext : String
  filename : String
  directory : String
  filepath : String
deriving Repr, DecidableEq

/-- The class-level (shared, process-wide) variables of `PicPath` that the
setters and constructors write. -/
structure ClassVars where
  current_filepath : String
  current_filename : String
  default_basename : String
  default_filename : String
deriving Repr, DecidableEq

/-- The `filepath` property setter (app.py lines 328-332): store the value,
overwrite the class-level `PicPath.current_filepath`, and emit
`filepathChanged` (the emission itself mutates no state). -/
def setFilepath (o : PicPath) (cv : ClassVars) (value : String) :
    PicPath × ClassVars :=
  ({ o with filepath := value }, { cv with current_filepath := value })

/-- The `filename` property setter (lines 309-313): store the value,
overwrite the class-level `PicPath.current_filename`, and re-derive
`filepath = os.path.join(os.path.sep, self.directory, value)`. -/
def setFilename (o : PicPath) (cv : ClassVars) (value : String) :
    PicPath × ClassVars :=
  let o1 := { o with filename := value }
  let cv1 := { cv with current_filename := value }
  setFilepath o1 cv1 (pyJoin "/" [o1.directory, value])

/-- The `basename` property setter (lines 291-294): store the value and
re-derive `filename = value + self.fileext`. -/
def setBasename (o : PicPath) (cv : ClassVars) (value : String) :
    PicPath × ClassVars :=
  let o1 := { o with basename := value }
  setFilename o1 cv (value ++ o1.fileext)

/-- The `fileext` property setter (lines 300-303): store the value and
re-derive `filename = self.basename + value`. -/
def setFileext (o : PicPath) (cv : ClassVars) (value : String) :
    PicPath × ClassVars :=
  let o1 := { o with fileext := value }
  setFilename o1 cv (o1.basename ++ value)

/-- The `directory` property setter (lines 319-322): store the value and
re-derive `filepath = os.path.join(os.path.sep, value, self.filename)`. -/
def setDirectory (o : PicPath) (cv : ClassVars) (value : String) :
    PicPath × ClassVars :=
  let o1 := { o with directory := value }
  setFilepath o1 cv (pyJoin "/" [value, o1.filename])

/-! ## `make_filepath_unique` (app.py lines 256-284) -/

/-- The candidate path
`os.path.join(os.path.sep, head, basename + "(" + str(num) + ")" + extension)`
that both the pre-loop assignment (lines 275-276) and the loop body
(lines 279-280) construct. -/
def mkCand (head basename extension : String) (num : Nat) : String :=
  pyJoin2 (pyJoin2 "/" head) (basename ++ "(" ++ natStr num ++ ")" ++ extension)

/-- The `while os.path.exists(path)` loop (lines 278-281).  Each iteration
rebuilds the candidate with the *current* `num` and only then increments
`num`, so the first iteration retests the entering path.  Embedded with
fuel; `make_filepath_unique` passes `fs.present.length + 1`, which
`captureLoop_not_mem` shows is enough for the loop to have exited through
its `not exists` condition. -/
def captureLoop (present : List String) (head basename extension : String) :
    Nat → String → Nat → String
  | 0, path, _ => path
  | fuel + 1, path, num =>
    if pyExistsL present path then
      captureLoop present head basename extension fuel
        (mkCand head basename extension num) (num + 1)
    else path

/-- `PicPath.make_filepath_unique` (lines 256-284).  If the current
filepath does not exist it is returned unchanged (no setter runs).
Otherwise the stem is parsed for a `(<num>)` marker (`num = 1`, full stem
as base, when there is none; line 273's `path` assignment in the match
branch is dead — line 276 overwrites it), candidates are probed from
`num` upwards, and the first free candidate is stored through the
`filepath` setter and returned. -/
def make_filepath_unique (fs : FS) (o : PicPath) (cv : ClassVars) :
    (PicPath × ClassVars) × String :=
  let path := o.filepath
  if pyExists fs path then
    let ht := pySplit path
    let head := ht.1
    let be := pySplitExt ht.2
    let extension := be.2
    let parsed :=
      match reGroupMatch be.1 with
      | none => (be.1, 1)
      | some bn => bn
    let basename := parsed.1
    let num := parsed.2
    let path1 := mkCand head basename extension num
    let r := captureLoop fs.present head basename extension
      (fs.present.length + 1) path1 num
    (setFilepath o cv r, r)
  else ((o, cv), path)

/-! ## `PicPath.__init__` (lines 192-219) and `PicPath.update` (lines 221-237) -/

/-- `PicPath.__init__`: derive the instance attributes — note the extra
`"RawPhotos"` component of `_directory` — and, when the basename is the
class default, run `make_filepath_unique` and re-derive `directory`,
`basename` and `fileext` from the unique path through the property
setters, finally updating the class defaults. -/
def picPathInit (initials exp_id batch_id basename fileext in_dir today : String)
    (fs : FS) (cv : ClassVars) : PicPath × ClassVars :=
  let directory :=
    pyJoin "/" [in_dir, initials, exp_id, "RawPhotos", batch_id ++ "_" ++ today]
  let filename := basename ++ fileext
  let o : PicPath :=
    ⟨basename, fileext, filename, directory, pyJoin "/" [directory, filename]⟩
  if basename = cv.default_basename then
    let step := make_filepath_unique fs o cv
    let unique := step.2
    let ht := pySplit unique
    let s2 := setDirectory step.1.1 step.1.2 ht.1
    let be := pySplitExt ht.2
    let s3 := setBasename s2.1 s2.2 be.1
    let s4 := setFileext s3.1 s3.2 be.2
    (s4.1, { s4.2 with default_basename := s4.1.basename,
                       default_filename := s4.1.filename })
  else (o, cv)

/-- `PicPath.update`: same as `__init__` but the directory has no
`"RawPhotos"` component.  (`update` also calls `os.makedirs` on the
directory when missing; that creates the *directory* entry, never the
allocated file path, and is not modelled.) -/
def picPathUpdate (initials exp_id batch_id basename fileext in_dir today : String)
    (fs : FS) (cv : ClassVars) : PicPath × ClassVars :=
  let directory :=
    pyJoin "/" [in_dir, initials, exp_id, batch_id ++ "_" ++ today]
  let filename := basename ++ fileext
  let o : PicPath :=
    ⟨basename, fileext, filename, directory, pyJoin "/" [directory, filename]⟩
  if basename = cv.default_basename then
    let step := make_filepath_unique fs o cv
    let unique := step.2
    let ht := pySplit unique
    let s2 := setDirectory step.1.1 step.1.2 ht.1
    let be := pySplitExt ht.2
    let s3 := setBasename s2.1 s2.2 be.1
    let s4 := setFileext s3.1 s3.2 be.2
    (s4.1, { s4.2 with default_basename := s4.1.basename,
                       default_filename := s4.1.filename })
  else (o, cv)

/-! ## Worker and capture-button wiring (lines 46-88 and 678-696) -/

/-- The outcome of the callback a `Worker` wraps: it either returns or
raises. -/
inductive FnOutcome where
  | ok : FnOutcome
  | exn : FnOutcome
deriving Repr, DecidableEq

/-- The signals a `Worker` can emit. -/
inductive WSignal where
  | error : WSignal
  | result : WSignal
  | finished : WSignal
deriving Repr, DecidableEq

/-- `Worker.run` (lines 76-88): `try` the callback; on an exception emit
`error`, otherwise emit `result`; in the `finally` block emit `finished`
*unconditionally*. -/
def workerRun : FnOutcome → List WSignal
  | FnOutcome.ok => [WSignal.result, WSignal.finished]
  | FnOutcome.exn => [WSignal.error, WSignal.finished]

/-- `CameraControls.capture_button_clicked` (lines 678-696): with
`af_required` set, a worker runs `run_af` and the *`finished`* signal is
connected to `preview.do_capture`; without it, `do_capture` is called
directly.  So `do_capture` (which starts the still capture) is invoked
exactly when this predicate holds. -/
def doCaptureInvoked (af_required : Bool) (af : FnOutcome) : Bool :=
  if af_required then (workerRun af).contains WSignal.finished
  else true

/-- `CameraPreviewWidget.do_capture` (lines 778-784): the still capture is
started at `PicPath.current_filepath` — the class-level variable, not a
path belonging to any particular object. -/
def captureTarget (cv : ClassVars) : String := cv.current_filepath

/-! ## Generic helper lemmas -/

/-- Two strings with the same character data are equal. -/
theorem strExt {s t : String} (h : s.data = t.data) : s = t := by
  cases s; cases t; exact congrArg String.mk h

theorem takeWhile_append_of_all {p : Char → Bool} {l₁ : List Char}
    (l₂ : List Char) (h : ∀ a ∈ l₁, p a = true) :
    (l₁ ++ l₂).takeWhile p = l₁ ++ l₂.takeWhile p := by
  induction l₁ with
  | nil => rfl
  | cons a l ih =>
    simp only [List.cons_append, List.takeWhile_cons, h a (by simp)]
    simp [ih fun x hx => h x (by simp [hx])]

theorem dropWhile_append_of_all {p : Char → Bool} {l₁ : List Char}
    (l₂ : List Char) (h : ∀ a ∈ l₁, p a = true) :
    (l₁ ++ l₂).dropWhile p = l₂.dropWhile p := by
  induction l₁ with
  | nil => rfl
  | cons a l ih =>
    simp only [List.cons_append, List.dropWhile_cons, h a (by simp)]
    simp [ih fun x hx => h x (by simp [hx])]

/-- The decimal rendering of naturals has no collisions on digits. -/
theorem decDigitChar_inj : ∀ d < 10, ∀ e < 10,
    decDigitChar d = decDigitChar e → d = e := by decide

theorem map_decDigitChar_inj : ∀ l₁ l₂ : List Nat, (∀ x ∈ l₁, x < 10) →
    (∀ x ∈ l₂, x < 10) → l₁.map decDigitChar = l₂.map decDigitChar → l₁ = l₂ := by
  intro l₁
  induction l₁ with
  | nil => intro l₂ _ _ h; cases l₂ <;> simp_all
  | cons a l ih =>
    intro l₂ h₁ h₂ h
    cases l₂ with
    | nil => simp_all
    | cons b m =>
      simp only [List.map_cons, List.cons.injEq] at h
      have ha : a = b :=
        decDigitChar_inj a (h₁ a (by simp)) b (h₂ b (by simp)) h.1
      have := ih m (fun x hx => h₁ x (by simp [hx]))
        (fun x hx => h₂ x (by simp [hx])) h.2
      simp [ha, this]

theorem decCharsRev_eq_digits : ∀ fuel n, n ≤ fuel →
    decCharsRev fuel n = (Nat.digits 10 n).map decDigitChar := by
  intro fuel
  induction fuel with
  | zero =>
    intro n hn
    have : n = 0 := Nat.le_zero.mp hn
    simp [this, decCharsRev]
  | succ f ih =>
    intro n hn
    rw [decCharsRev]
    by_cases h0 : n = 0
    · simp [h0]
    · rw [if_neg h0,
        Nat.digits_def' (by norm_num : 1 < 10) (Nat.pos_of_ne_zero h0),
        List.map_cons]
      congr 1
      refine ih (n / 10) ?_
      have : n / 10 < n := Nat.div_lt_self (Nat.pos_of_ne_zero h0) (by norm_num)
      omega

theorem natStr_data (n : Nat) : (natStr n).data =
    if n = 0 then ['0'] else ((Nat.digits 10 n).reverse.map decDigitChar) := by
  unfold natStr
  split
  · rfl
  · show (decCharsRev n n).reverse = _
    rw [decCharsRev_eq_digits n n le_rfl, ← List.map_reverse]

/-- Python's `str` on non-negative integers is injective. -/
theorem natStr_inj : Function.Injective natStr := by
  intro a b h
  have h' := congrArg String.data h
  rw [natStr_data, natStr_data] at h'
  have digall : ∀ m : Nat, ∀ x ∈ (Nat.digits 10 m).reverse, x < 10 := by
    intro m x hx
    exact Nat.digits_lt_base (by norm_num) (List.mem_reverse.mp hx)
  have key : ∀ m : Nat, m ≠ 0 →
      (Nat.digits 10 m).reverse.map decDigitChar = ['0'] → False := by
    intro m hm hmap
    have : (Nat.digits 10 m).reverse = [0] := by
      have := map_decDigitChar_inj (Nat.digits 10 m).reverse [0]
        (digall m) (by simp) (by simpa using hmap)
      simpa using this
    have hd : Nat.digits 10 m = [0] := by
      have := congrArg List.reverse this
      simpa using this
    have := Nat.ofDigits_digits 10 m
    rw [hd] at this
    simp [Nat.ofDigits] at this
    exact hm this.symm
  by_cases ha : a = 0 <;> by_cases hb : b = 0
  · omega
  · rw [if_pos ha, if_neg hb] at h'
    exact absurd h'.symm (fun hh => key b hb hh)
  · rw [if_neg ha, if_pos hb] at h'
    exact absurd h' (fun hh => key a ha hh)
  · rw [if_neg ha, if_neg hb] at h'
    have : (Nat.digits 10 a).reverse = (Nat.digits 10 b).reverse :=
      map_decDigitChar_inj _ _ (digall a) (digall b) h'
    have hd : Nat.digits 10 a = Nat.digits 10 b := by
      have := congrArg List.reverse this
      simpa using this
    have := Nat.ofDigits_digits 10 a
    rw [hd, Nat.ofDigits_digits] at this
    exact this.symm

/-! ## Structure of the candidate paths -/

theorem data_lparen : ("(" : String).data = ['('] := rfl

theorem data_rparen : (")" : String).data = [')'] := rfl

theorem candName_data (b e x : String) :
    (b ++ "(" ++ x ++ ")" ++ e).data
      = b.data ++ ('(' :: (x.data ++ (')' :: e.data))) := by
  simp [String.data_append, data_lparen, data_rparen]

/-- Every candidate `os.path.join(os.path.sep, head, b + "(" + x + ")" + e)`
decomposes as a fixed prefix, the varying infix `x`, and the fixed suffix
`")" + e`: the join's branch conditions do not depend on `x`. -/
theorem cand_data (head b e : String) : ∃ P : List Char, ∀ x : String,
    (pyJoin2 (pyJoin2 "/" head) (b ++ "(" ++ x ++ ")" ++ e)).data
      = P ++ (x.data ++ (')' :: e.data)) := by
  have hsw : ∀ x : String, startsWithSlash (b ++ "(" ++ x ++ ")" ++ e)
      = startsWithSlash ⟨b.data ++ ['(']⟩ := by
    intro x
    unfold startsWithSlash
    rw [candName_data]
    cases b.data with
    | nil => rfl
    | cons c cs => rfl
  set H := pyJoin2 "/" head with hH
  by_cases h1 : startsWithSlash ⟨b.data ++ ['(']⟩ = true
  · refine ⟨b.data ++ ['('], fun x => ?_⟩
    rw [pyJoin2, if_pos (by rw [hsw x]; exact h1), candName_data]
    simp
  · by_cases h2 : (H = "" || endsWithSlash H) = true
    · refine ⟨H.data ++ b.data ++ ['('], fun x => ?_⟩
      rw [pyJoin2, if_neg (by rw [hsw x]; exact h1), if_pos h2,
        String.data_append, candName_data]
      simp
    · refine ⟨H.data ++ ['/'] ++ b.data ++ ['('], fun x => ?_⟩
      rw [pyJoin2, if_neg (by rw [hsw x]; exact h1), if_neg h2,
        String.data_append, String.data_append, candName_data]
      simp [show ("/" : String).data = ['/'] from rfl]

/-- For fixed head, base and extension, distinct indices give distinct
candidate paths. -/
theorem mkCand_inj (head b e : String) :
    Function.Injective (mkCand head b e) := by
  obtain ⟨P, hP⟩ := cand_data head b e
  intro n m h
  have hdata := congrArg String.data h
  rw [show mkCand head b e n
        = pyJoin2 (pyJoin2 "/" head) (b ++ "(" ++ natStr n ++ ")" ++ e) from rfl,
      show mkCand head b e m
        = pyJoin2 (pyJoin2 "/" head) (b ++ "(" ++ natStr m ++ ")" ++ e) from rfl,
      hP (natStr n), hP (natStr m)] at hdata
  have h1 := List.append_cancel_left hdata
  have h2 := List.append_cancel_right h1
  exact natStr_inj (strExt h2)

/-! ## Pigeonhole: a finite filesystem cannot absorb every candidate -/

theorem exists_not_mem_of_inj : ∀ (m : Nat) (pr : List String) (f : Nat → String),
    Function.Injective f → pr.length ≤ m →
    ∀ n, ∃ k, k ≤ pr.length ∧ f (n + k) ∉ pr := by
  intro m
  induction m with
  | zero =>
    intro pr f _ hl n
    have : pr = [] := List.length_eq_zero.mp (Nat.le_zero.mp hl)
    exact ⟨0, by omega, by simp [this]⟩
  | succ m ih =>
    intro pr f hf hl n
    by_cases hmem : f n ∈ pr
    · obtain ⟨k, hk, hnot⟩ := ih (pr.erase (f n)) f hf
        (by rw [List.length_erase_of_mem hmem]; omega) (n + 1)
      have hpos : 0 < pr.length := List.length_pos.mpr (by rintro rfl; simp at hmem)
      have hlen := List.length_erase_of_mem hmem
      refine ⟨k + 1, by omega, fun hin => ?_⟩
      have hne : f (n + (k + 1)) ≠ f n := fun hh => by have := hf hh; omega
      have : f (n + (k + 1)) ∈ pr.erase (f n) := (List.mem_erase_of_ne hne).mpr hin
      rw [show n + (k + 1) = n + 1 + k by omega] at this
      exact hnot this
    · exact ⟨0, Nat.zero_le _, by simpa using hmem⟩

/-! ## Properties of the disambiguation loop -/

/-- As long as some candidate at or beyond the current index is free
(or the entering path itself is free), the loop's answer is a path that
does not exist — the Python loop's exit condition. -/
theorem captureLoop_not_mem (pr : List String) (h b e : String) :
    ∀ (fuel : Nat) (path : String) (num : Nat),
      (path ∉ pr ∨ ∃ j, j < fuel ∧ mkCand h b e (num + j) ∉ pr) →
      captureLoop pr h b e fuel path num ∉ pr := by
  intro fuel
  induction fuel with
  | zero =>
    intro path num hH
    rcases hH with h1 | ⟨j, hj, _⟩
    · simpa [captureLoop] using h1
    · omega
  | succ f ih =>
    intro path num hH
    rw [captureLoop]
    by_cases hp : pyExistsL pr path = true
    · rw [if_pos hp]
      apply ih
      rcases hH with h1 | ⟨j, hj, hjn⟩
      · exact absurd (by simpa [pyExistsL] using hp) h1
      · cases j with
        | zero => exact Or.inl (by simpa using hjn)
        | succ j' =>
          exact Or.inr ⟨j', by omega,
            by rw [show num + 1 + j' = num + (j' + 1) by omega]; exact hjn⟩
    · rw [if_neg hp]
      simpa [pyExistsL] using hp

/-- Every path the loop can return is a candidate whose index is at least
the lower bound the loop started from. -/
theorem captureLoop_shape (pr : List String) (h b e : String) :
    ∀ (fuel : Nat) (path : String) (num lo : Nat),
      (∃ j, lo ≤ j ∧ path = mkCand h b e j) → lo ≤ num →
      ∃ j, lo ≤ j ∧ captureLoop pr h b e fuel path num = mkCand h b e j := by
  intro fuel
  induction fuel with
  | zero => intro path num lo hpath _; simpa [captureLoop] using hpath
  | succ f ih =>
    intro path num lo hpath hnum
    rw [captureLoop]
    by_cases hp : pyExistsL pr path = true
    · rw [if_pos hp]
      exact ih (mkCand h b e num) (num + 1) lo ⟨num, hnum, rfl⟩ (by omega)
    · rw [if_neg hp]
      exact hpath

/-! ## Consequences for `make_filepath_unique` -/

/-- When the current filepath does not exist, `make_filepath_unique`
returns it unchanged and runs no setter (lines 257-259). -/
theorem mfu_of_not_mem (fs : FS) (o : PicPath) (cv : ClassVars)
    (h : o.filepath ∉ fs.present) :
    make_filepath_unique fs o cv = ((o, cv), o.filepath) := by
  unfold make_filepath_unique
  rw [if_neg (by simp [pyExists, pyExistsL, h])]

/-- The path `make_filepath_unique` returns never exists on the
filesystem it was computed against. -/
theorem mfu_not_mem (fs : FS) (o : PicPath) (cv : ClassVars) :
    (make_filepath_unique fs o cv).2 ∉ fs.present := by
  by_cases h : o.filepath ∈ fs.present
  · unfold make_filepath_unique
    rw [if_pos (by simp [pyExists, pyExistsL, h])]
    simp only []
    apply captureLoop_not_mem
    refine Or.inr ?_
    obtain ⟨k, hk, hknot⟩ := exists_not_mem_of_inj fs.present.length fs.present
      _ (mkCand_inj (pySplit o.filepath).1
        (match reGroupMatch (pySplitExt (pySplit o.filepath).2).1 with
          | none => ((pySplitExt (pySplit o.filepath).2).1, 1)
          | some bn => bn).1
        (pySplitExt (pySplit o.filepath).2).2) le_rfl _
    exact ⟨k, by omega, hknot⟩
  · rw [mfu_of_not_mem fs o cv h]
    exact h

/-- `make_filepath_unique` stores the returned path in the object's
`filepath` attribute (or leaves it untouched when it early-returns the
unchanged filepath). -/
theorem mfu_filepath (fs : FS) (o : PicPath) (cv : ClassVars) :
    (make_filepath_unique fs o cv).1.1.filepath = (make_filepath_unique fs o cv).2 := by
  unfold make_filepath_unique
  by_cases h : pyExists fs o.filepath = true
  · rw [if_pos h]; rfl
  · rw [if_neg h]

/-! ## Claim theorems -/

/-- C1: the claim says a capture job whose autofocus reports an error must
never invoke the still capture.  In the code, `Worker.run` emits
`finished` in its `finally` block even when the callback raised, and
`capture_button_clicked` connects `finished` — not `result` — to
`preview.do_capture`; so when autofocus raises, the error signal is
emitted *and* the still capture is started anyway.  This theorem
evaluates the wiring at that failing input. -/
theorem C1_still_capture_runs_despite_autofocus_error :
    WSignal.error ∈ workerRun FnOutcome.exn
      ∧ doCaptureInvoked true FnOutcome.exn = true := by
  constructor
  · decide
  · decide

/-- C4: allocation is idempotent against an unchanged filesystem: running
`make_filepath_unique` a second time on the state the first run produced
returns the same path (for every filesystem, object and class state). -/
theorem C4_allocation_idempotent (fs : FS) (o : PicPath) (cv : ClassVars) :
    (make_filepath_unique fs
        (make_filepath_unique fs o cv).1.1
        (make_filepath_unique fs o cv).1.2).2
      = (make_filepath_unique fs o cv).2 := by
  have h1 := mfu_not_mem fs o cv
  have h2 := mfu_filepath fs o cv
  rw [mfu_of_not_mem fs _ _ (by rw [h2]; exact h1)]
  exact h2

/-- C5: once a capture has consumed the current filepath (the file now
exists there), the next allocation never hands the same path out again. -/
theorem C5_existing_path_never_returned (fs : FS) (o : PicPath)
    (cv : ClassVars) (h : o.filepath ∈ fs.present) :
    (make_filepath_unique fs o cv).2 ≠ o.filepath := by
  intro heq
  have hnm := mfu_not_mem fs o cv
  rw [heq] at hnm
  exact hnm h

/-- C5 witness: with `/d/Unnamed.png` on the filesystem and as the current
filepath, the recomputed path differs from it. -/
theorem C5_witness :
    "/d/Unnamed.png" ∈ (FS.mk ["/d/Unnamed.png"] []).present
      ∧ (make_filepath_unique (FS.mk ["/d/Unnamed.png"] [])
          ⟨"Unnamed", ".png", "Unnamed.png", "/d", "/d/Unnamed.png"⟩
          ⟨"", "", "u", ""⟩).2 ≠ "/d/Unnamed.png" :=
  ⟨by decide, C5_existing_path_never_returned (FS.mk ["/d/Unnamed.png"] [])
    ⟨"Unnamed", ".png", "Unnamed.png", "/d", "/d/Unnamed.png"⟩
    ⟨"", "", "u", ""⟩ (by decide)⟩

/-- C6 counterexample: the claim says allocation must *fail* with an
`AllocationError` when the parent directory cannot be statted, never
silently returning a path.  In the code `os.path.exists` swallows the
`OSError` and reports `False`, so with the parent directory `/locked`
unstattable the allocator succeeds and returns the path unchanged — no
error is raised or propagated anywhere in `make_filepath_unique`. -/
theorem C6_counterexample :
    "/locked" ∈ (FS.mk [] ["/locked", "/locked/f.png"]).unreadable
      ∧ pyExists (FS.mk [] ["/locked", "/locked/f.png"]) "/locked/f.png" = false
      ∧ make_filepath_unique (FS.mk [] ["/locked", "/locked/f.png"])
          ⟨"f", ".png", "f.png", "/locked", "/locked/f.png"⟩ ⟨"", "", "u", ""⟩
        = ((⟨"f", ".png", "f.png", "/locked", "/locked/f.png"⟩, ⟨"", "", "u", ""⟩),
           "/locked/f.png") := by
  refine ⟨by decide, by decide, by decide⟩

/-- C6 amended: allocation never fails and is completely insensitive to
which paths are unstattable — `os.path.exists` reports `False` for them,
so they are treated exactly like missing paths and a path is always
silently returned. -/
theorem C6_amended_stat_errors_swallowed (pr u u' : List String)
    (o : PicPath) (cv : ClassVars) :
    make_filepath_unique ⟨pr, u⟩ o cv = make_filepath_unique ⟨pr, u'⟩ o cv := rfl

/-- C7 counterexample: `do_capture` reads the class-level
`PicPath.current_filepath`.  After object `A` publishes `/d/a.png`,
mutating the *other* object `B`'s filepath changes the target a capture
initiated against `A` would use. -/
theorem C7_counterexample :
    captureTarget (setFilepath ⟨"a", ".png", "a.png", "/d", "/d/a.png"⟩
        ⟨"", "", "u", ""⟩ "/d/a.png").2 = "/d/a.png"
      ∧ captureTarget (setFilepath ⟨"b", ".png", "b.png", "/d", "/d/b.png"⟩
          (setFilepath ⟨"a", ".png", "a.png", "/d", "/d/a.png"⟩
            ⟨"", "", "u", ""⟩ "/d/a.png").2 "/d/b.png").2 = "/d/b.png"
      ∧ (setFilepath ⟨"a", ".png", "a.png", "/d", "/d/a.png"⟩
            ⟨"", "", "u", ""⟩ "/d/a.png").1.filepath = "/d/a.png" := by
  refine ⟨by decide, by decide, by decide⟩

/-- C7 amended: the capture target is ambient process-wide state: after
*any* object's `filepath` setter runs, the capture target equals the value
just stored, and the resulting class state does not depend on which object
was mutated. -/
theorem C7_amended_capture_target_is_classwide (o o' : PicPath)
    (cv : ClassVars) (v : String) :
    captureTarget (setFilepath o cv v).2 = v
      ∧ (setFilepath o cv v).2 = (setFilepath o' cv v).2 :=
  ⟨rfl, rfl⟩

/-- C8: when the current (canonical) filepath does not exist, allocation
returns it unchanged and the whole state is untouched — no `(1)` suffix,
no other modification. -/
theorem C8_free_path_returned_unchanged (fs : FS) (o : PicPath)
    (cv : ClassVars) (h : o.filepath ∉ fs.present) :
    (make_filepath_unique fs o cv).2 = o.filepath
      ∧ make_filepath_unique fs o cv = ((o, cv), o.filepath) := by
  have he := mfu_of_not_mem fs o cv h
  exact ⟨by rw [he], he⟩

/-- C8 witness: on an empty filesystem the canonical path comes back
verbatim. -/
theorem C8_witness :
    "/d/Unnamed.png" ∉ (FS.mk [] []).present
      ∧ (make_filepath_unique (FS.mk [] [])
          ⟨"Unnamed", ".png", "Unnamed.png", "/d", "/d/Unnamed.png"⟩
          ⟨"", "", "u", ""⟩).2 = "/d/Unnamed.png" :=
  ⟨by decide, (C8_free_path_returned_unchanged (FS.mk [] [])
    ⟨"Unnamed", ".png", "Unnamed.png", "/d", "/d/Unnamed.png"⟩
    ⟨"", "", "u", ""⟩ (by decide)).1⟩

/-- C9: a stem with text after the parenthesized marker, `ab(3)cd`,
parses as base `ab` with index `3`: the allocator discards `cd` and
proposes `ab(3).png` (then `ab(4).png` when that is taken), not
`ab(3)cd(1).png`. -/
theorem C9_marker_suffix_discarded :
    reGroupMatch "ab(3)cd" = some ("ab", 3)
      ∧ (make_filepath_unique (FS.mk ["/d/ab(3)cd.png"] [])
          ⟨"x", ".png", "x.png", "/d", "/d/ab(3)cd.png"⟩ ⟨"", "", "u", ""⟩).2
        = "/d/ab(3).png"
      ∧ (make_filepath_unique (FS.mk ["/d/ab(3)cd.png", "/d/ab(3).png"] [])
          ⟨"x", ".png", "x.png", "/d", "/d/ab(3)cd.png"⟩ ⟨"", "", "u", ""⟩).2
        = "/d/ab(4).png" := by
  refine ⟨by decide, by decide, by decide⟩

/-! ## Further helpers: frame conditions and filesystem congruence -/

/-- `make_filepath_unique` reads the filesystem only through
`os.path.exists`, which ignores unstattable paths, so the `unreadable`
component is irrelevant. -/
theorem mfu_ignores_unreadable (pr u u' : List String) (o : PicPath)
    (cv : ClassVars) :
    make_filepath_unique ⟨pr, u⟩ o cv = make_filepath_unique ⟨pr, u'⟩ o cv := rfl

/-- Frame condition: `make_filepath_unique` leaves `basename`, `fileext`,
`filename`, `directory` and the class defaults and current filename
untouched, and its returned path is exactly what it stored in
`filepath`. -/
theorem mfu_frame (fs : FS) (o : PicPath) (cv : ClassVars) :
    (make_filepath_unique fs o cv).1.1.basename = o.basename
      ∧ (make_filepath_unique fs o cv).1.1.fileext = o.fileext
      ∧ (make_filepath_unique fs o cv).1.1.filename = o.filename
      ∧ (make_filepath_unique fs o cv).1.1.directory = o.directory
      ∧ (make_filepath_unique fs o cv).1.2.current_filename = cv.current_filename
      ∧ (make_filepath_unique fs o cv).1.2.default_basename = cv.default_basename
      ∧ (make_filepath_unique fs o cv).1.2.default_filename = cv.default_filename := by
  unfold make_filepath_unique
  by_cases h : pyExists fs o.filepath = true
  · rw [if_pos h]
    exact ⟨rfl, rfl, rfl, rfl, rfl, rfl, rfl⟩
  · rw [if_neg h]
    exact ⟨rfl, rfl, rfl, rfl, rfl, rfl, rfl⟩

/-- C2: starting from the already-marked filepath `/d/sample(2).png`
(present on the filesystem), the search runs strictly upward from the
parsed index 2: the result is never `/d/sample(1).png` whatever else the
filesystem holds, and when `sample(2).png` is the only file the result is
exactly `/d/sample(3).png`. -/
theorem C2_search_monotonic_from_parsed_index (fs : FS)
    (h : "/d/sample(2).png" ∈ fs.present) :
    (make_filepath_unique fs
        ⟨"sample(2)", ".png", "sample(2).png", "/d", "/d/sample(2).png"⟩
        ⟨"", "", "u", ""⟩).2 ≠ "/d/sample(1).png"
      ∧ (fs.present = ["/d/sample(2).png"] →
          (make_filepath_unique fs
            ⟨"sample(2)", ".png", "sample(2).png", "/d", "/d/sample(2).png"⟩
            ⟨"", "", "u", ""⟩).2 = "/d/sample(3).png") := by
  constructor
  · have hcond : pyExists fs "/d/sample(2).png" = true := by
      simp [pyExists, pyExistsL, h]
    unfold make_filepath_unique
    simp only [hcond, if_true]
    show captureLoop fs.present "/d" "sample" ".png" (fs.present.length + 1)
        (mkCand "/d" "sample" ".png" 2) 2 ≠ "/d/sample(1).png"
    obtain ⟨j, hj, hjr⟩ := captureLoop_shape fs.present "/d" "sample" ".png"
      (fs.present.length + 1) (mkCand "/d" "sample" ".png" 2) 2 2
      ⟨2, le_rfl, rfl⟩ le_rfl
    rw [hjr]
    intro heq
    have h1 : mkCand "/d" "sample" ".png" j = mkCand "/d" "sample" ".png" 1 :=
      heq.trans (by decide)
    have := mkCand_inj "/d" "sample" ".png" h1
    omega
  · intro hfs
    obtain ⟨pr, u⟩ := fs
    simp only at hfs
    subst hfs
    rw [mfu_ignores_unreadable _ u []]
    decide

/-- C10: `make_filepath_unique` mutates only the object's `filepath`
attribute (plus the class-level current filepath), leaving `basename`,
`fileext`, `filename` and `directory` alone; consequently, whenever it
returns a path different from the one it started from, the stored
`filepath` no longer agrees with `os.path.join` of the unchanged
`directory` and `filename`. -/
theorem C10_only_filepath_mutated (fs : FS) (o : PicPath) (cv : ClassVars)
    (hcons : o.filepath = pyJoin "/" [o.directory, o.filename]) :
    ((make_filepath_unique fs o cv).1.1.basename = o.basename
      ∧ (make_filepath_unique fs o cv).1.1.fileext = o.fileext
      ∧ (make_filepath_unique fs o cv).1.1.filename = o.filename
      ∧ (make_filepath_unique fs o cv).1.1.directory = o.directory
      ∧ (make_filepath_unique fs o cv).1.2.current_filename = cv.current_filename
      ∧ (make_filepath_unique fs o cv).1.2.default_basename = cv.default_basename
      ∧ (make_filepath_unique fs o cv).1.2.default_filename = cv.default_filename
      ∧ (make_filepath_unique fs o cv).1.1.filepath = (make_filepath_unique fs o cv).2)
    ∧ ((make_filepath_unique fs o cv).2 ≠ o.filepath →
        (make_filepath_unique fs o cv).1.1.filepath
          ≠ pyJoin "/" [(make_filepath_unique fs o cv).1.1.directory,
              (make_filepath_unique fs o cv).1.1.filename]) := by
  obtain ⟨hb, he, hf, hd, hcf, hdb, hdf⟩ := mfu_frame fs o cv
  have hfp := mfu_filepath fs o cv
  refine ⟨⟨hb, he, hf, hd, hcf, hdb, hdf, hfp⟩, fun hne => ?_⟩
  rw [hfp, hd, hf, ← hcons]
  exact hne

/-- C10 witness: a colliding filesystem where the returned path carries a
fresh `(1)` suffix, so the stored filepath departs from the join of the
unchanged directory and filename. -/
theorem C10_witness :
    ("/d/Unnamed.png" : String)
        = pyJoin "/" [("/d" : String), ("Unnamed.png" : String)]
      ∧ ((make_filepath_unique (FS.mk ["/d/Unnamed.png"] [])
            ⟨"Unnamed", ".png", "Unnamed.png", "/d", "/d/Unnamed.png"⟩
            ⟨"", "", "u", ""⟩).1.1.filename = "Unnamed.png"
          ∧ (make_filepath_unique (FS.mk ["/d/Unnamed.png"] [])
              ⟨"Unnamed", ".png", "Unnamed.png", "/d", "/d/Unnamed.png"⟩
              ⟨"", "", "u", ""⟩).2 ≠ "/d/Unnamed.png"
          ∧ (make_filepath_unique (FS.mk ["/d/Unnamed.png"] [])
              ⟨"Unnamed", ".png", "Unnamed.png", "/d", "/d/Unnamed.png"⟩
              ⟨"", "", "u", ""⟩).1.1.filepath
            ≠ pyJoin "/" [(make_filepath_unique (FS.mk ["/d/Unnamed.png"] [])
                  ⟨"Unnamed", ".png", "Unnamed.png", "/d", "/d/Unnamed.png"⟩
                  ⟨"", "", "u", ""⟩).1.1.directory,
                (make_filepath_unique (FS.mk ["/d/Unnamed.png"] [])
                  ⟨"Unnamed", ".png", "Unnamed.png", "/d", "/d/Unnamed.png"⟩
                  ⟨"", "", "u", ""⟩).1.1.filename]) := by
  refine ⟨by decide, ?_, by decide, ?_⟩
  · exact (C10_only_filepath_mutated (FS.mk ["/d/Unnamed.png"] [])
      ⟨"Unnamed", ".png", "Unnamed.png", "/d", "/d/Unnamed.png"⟩
      ⟨"", "", "u", ""⟩ (by decide)).1.2.2.1
  · exact (C10_only_filepath_mutated (FS.mk ["/d/Unnamed.png"] [])
      ⟨"Unnamed", ".png", "Unnamed.png", "/d", "/d/Unnamed.png"⟩
      ⟨"", "", "u", ""⟩ (by decide)).2 (by decide)

/-! ## String-level helpers for the end-to-end path computation -/

theorem strEta (s : String) : (⟨s.data⟩ : String) = s := by cases s; rfl

theorem strAppend_assoc (a b c : String) : a ++ b ++ c = a ++ (b ++ c) :=
  strExt (by simp [String.data_append])

theorem strAppend_left_cancel {D X Y : String} (h : D ++ X = D ++ Y) : X = Y := by
  have hd := congrArg String.data h
  rw [String.data_append, String.data_append] at hd
  exact strExt (List.append_cancel_left hd)

theorem strAppend_ne {X Y : String} (D : String) (h : X ≠ Y) : D ++ X ≠ D ++ Y :=
  fun hh => h (strAppend_left_cancel hh)

/-- Merge a separator into a literal: from `"/" ++ T = U` conclude
`D ++ "/" ++ T = D ++ U`. -/
theorem sep_merge {T U : String} (D : String) (h : ("/" : String) ++ T = U) :
    D ++ "/" ++ T = D ++ U := by
  rw [strAppend_assoc, h]

/-- Extend a literal prefix: from `A ++ B = C` conclude
`A ++ (B ++ d) = C ++ d`. -/
theorem lit_extend {A B C : String} (h : A ++ B = C) (d : String) :
    A ++ (B ++ d) = C ++ d := by
  rw [← strAppend_assoc, h]

theorem sws_of_data_cons {s : String} {c : Char} {l : List Char}
    (h : s.data = c :: l) : startsWithSlash s = (c == '/') := by
  unfold startsWithSlash
  rw [h]

theorem ne_empty_of_data_cons {s : String} {c : Char} {l : List Char}
    (h : s.data = c :: l) : ¬ s = "" := by
  intro he
  rw [he] at h
  exact absurd h (by simp [show ("" : String).data = [] from rfl])

theorem ews_false {s : String}
    (h : ∀ c, s.data.getLast? = some c → c ≠ '/') : endsWithSlash s = false := by
  unfold endsWithSlash
  cases hl : s.data.getLast? with
  | none => rfl
  | some c => simpa using h c hl

theorem pyJoin2_abs {a b : String} (hb : startsWithSlash b = true) :
    pyJoin2 a b = b := by
  unfold pyJoin2
  rw [if_pos hb]

theorem pyJoin2_sep {a b : String} (hb : startsWithSlash b = false)
    (ha : ¬ a = "") (ha2 : endsWithSlash a = false) :
    pyJoin2 a b = a ++ "/" ++ b := by
  unfold pyJoin2
  rw [if_neg (by simp [hb]), if_neg (by simp [ha, ha2])]

/-- `posixpath.split` cuts a path `D + "/" + T` back into `(D, T)` whenever
the tail has no slash and `D` neither ends with a slash nor consists only
of slashes. -/
theorem pySplit_append (D T : String) (hT : ∀ c ∈ T.data, c ≠ '/')
    (hne : ∃ c ∈ D.data, c ≠ '/')
    (hlast : ∀ c, D.data.getLast? = some c → c ≠ '/') :
    pySplit (D ++ "/" ++ T) = (D, T) := by
  have hdata : (D ++ "/" ++ T).data = (D.data ++ ['/']) ++ T.data := by
    simp [String.data_append, show ("/" : String).data = ['/'] from rfl]
  have hrev : (D ++ "/" ++ T).data.reverse
      = T.data.reverse ++ ('/' :: D.data.reverse) := by
    rw [hdata]; simp
  have htw : ((D ++ "/" ++ T).data.reverse.takeWhile (fun c => c != '/')).length
      = T.data.length := by
    rw [hrev, takeWhile_append_of_all _ (fun a ha => by
      simpa using hT a (List.mem_reverse.mp ha))]
    simp [List.takeWhile_cons]
  have hlen : (D ++ "/" ++ T).data.length = D.data.length + 1 + T.data.length := by
    rw [hdata]; simp; omega
  have hidx : (D ++ "/" ++ T).data.length
      - ((D ++ "/" ++ T).data.reverse.takeWhile (fun c => c != '/')).length
      = (D.data ++ ['/']).length := by
    rw [htw, hlen]; simp
  have htake : (D ++ "/" ++ T).data.take
      ((D ++ "/" ++ T).data.length
        - ((D ++ "/" ++ T).data.reverse.takeWhile (fun c => c != '/')).length)
      = D.data ++ ['/'] := by
    rw [hidx, hdata, List.take_left]
  have hdrop : (D ++ "/" ++ T).data.drop
      ((D ++ "/" ++ T).data.length
        - ((D ++ "/" ++ T).data.reverse.takeWhile (fun c => c != '/')).length)
      = T.data := by
    rw [hidx, hdata, List.drop_left]
  have hany : (D.data ++ ['/']).any (fun c => c != '/') = true := by
    obtain ⟨c, hc, hcne⟩ := hne
    simp only [List.any_eq_true]
    exact ⟨c, by simp [hc], by simpa using hcne⟩
  have hAnil : D.data ≠ [] := by
    obtain ⟨c, hc, _⟩ := hne
    exact List.ne_nil_of_mem hc
  have hdts : dropTrailingSlashes (D.data ++ ['/']) = D.data := by
    unfold dropTrailingSlashes
    rw [List.reverse_append]
    simp only [List.reverse_cons, List.reverse_nil, List.nil_append,
      List.singleton_append, List.dropWhile_cons]
    simp only [beq_self_eq_true, if_true]
    cases hR : D.data.reverse with
    | nil => exact absurd (by simpa using hR) hAnil
    | cons c rest =>
      have hcl : D.data.getLast? = some c := by
        rw [← List.head?_reverse, hR]; rfl
      have : (c == '/') = false := by simpa using hlast c hcl
      rw [List.dropWhile_cons, this]
      simp [← hR]
  unfold pySplit
  simp only [htake, hdrop, hany, if_true, hdts]

/-! ## The concrete directory of the end-to-end scenario -/

theorem D_data (d : String) :
    ("/data/AB/3/A_" ++ d).data = '/' :: ("data/AB/3/A_".data ++ d.data) := by
  rw [String.data_append,
    show ("/data/AB/3/A_" : String).data = '/' :: ("data/AB/3/A_" : String).data from rfl]
  rfl

theorem sws_D (d : String) : startsWithSlash ("/data/AB/3/A_" ++ d) = true := by
  rw [sws_of_data_cons (D_data d)]
  rfl

theorem D_ne_empty (d : String) : ¬ ("/data/AB/3/A_" ++ d) = "" :=
  ne_empty_of_data_cons (D_data d)

theorem D_getLast (d : String) (hd : ∀ c ∈ d.data, c ≠ '/') :
    ∀ c, ("/data/AB/3/A_" ++ d).data.getLast? = some c → c ≠ '/' := by
  intro c hc
  rw [String.data_append, ← List.head?_reverse, List.reverse_append] at hc
  cases hR : d.data.reverse with
  | nil =>
    rw [hR] at hc
    simp only [List.nil_append] at hc
    rw [show ("/data/AB/3/A_" : String).data.reverse.head?
          = some '_' from by decide] at hc
    have : c = '_' := by simpa using hc.symm
    simp [this]
  | cons e r =>
    rw [hR] at hc
    simp only [List.cons_append, List.head?_cons, Option.some.injEq] at hc
    have he : e ∈ d.data :=
      List.mem_reverse.mp (by rw [hR]; exact List.mem_cons_self _ _)
    rw [← hc]
    exact hd e he

theorem ews_D (d : String) (hd : ∀ c ∈ d.data, c ≠ '/') :
    endsWithSlash ("/data/AB/3/A_" ++ d) = false :=
  ews_false (D_getLast d hd)

theorem D_has_nonslash (d : String) :
    ∃ c ∈ ("/data/AB/3/A_" ++ d).data, c ≠ '/' := by
  refine ⟨'d', ?_, by decide⟩
  rw [D_data d]
  exact List.mem_cons_of_mem _ (List.mem_append_left _ (by decide))

theorem dir_D (d : String) :
    pyJoin "/" ["/data", "AB", "3", "A_" ++ d] = "/data/AB/3/A_" ++ d := by
  show pyJoin2 (pyJoin2 (pyJoin2 (pyJoin2 "/" "/data") "AB") "3") ("A_" ++ d) = _
  rw [show pyJoin2 (pyJoin2 (pyJoin2 "/" "/data") "AB") "3" = "/data/AB/3" from rfl]
  rw [pyJoin2_sep (by
      rw [sws_of_data_cons (show ("A_" ++ d).data = 'A' :: ('_' :: d.data) from by
        rw [String.data_append]; rfl)]
      rfl)
    (by decide) (by decide)]
  rw [show ("/data/AB/3" : String) ++ "/" = "/data/AB/3/" from rfl]
  exact lit_extend (show ("/data/AB/3/" : String) ++ "A_" = "/data/AB/3/A_" from rfl) d

theorem join_D (d : String) (hd : ∀ c ∈ d.data, c ≠ '/') (T U : String)
    (hT : startsWithSlash T = false) (hU : ("/" : String) ++ T = U) :
    pyJoin "/" ["/data/AB/3/A_" ++ d, T] = ("/data/AB/3/A_" ++ d) ++ U := by
  show pyJoin2 (pyJoin2 "/" ("/data/AB/3/A_" ++ d)) T = _
  rw [pyJoin2_abs (sws_D d), pyJoin2_sep hT (D_ne_empty d) (ews_D d hd)]
  exact sep_merge _ hU

/-! ## The end-to-end `update` scenario -/

theorem mfu_collision_D (d : String) (hd : ∀ c ∈ d.data, c ≠ '/') (cv : ClassVars) :
    make_filepath_unique ⟨[("/data/AB/3/A_" ++ d) ++ "/Unnamed.png"], []⟩
      ⟨"Unnamed", ".png", "Unnamed.png", "/data/AB/3/A_" ++ d,
        ("/data/AB/3/A_" ++ d) ++ "/Unnamed.png"⟩ cv
      = ((⟨"Unnamed", ".png", "Unnamed.png", "/data/AB/3/A_" ++ d,
            ("/data/AB/3/A_" ++ d) ++ "/Unnamed(1).png"⟩,
          { cv with current_filepath := ("/data/AB/3/A_" ++ d) ++ "/Unnamed(1).png" }),
         ("/data/AB/3/A_" ++ d) ++ "/Unnamed(1).png") := by
  have hex : pyExists ⟨[("/data/AB/3/A_" ++ d) ++ "/Unnamed.png"], []⟩
      (("/data/AB/3/A_" ++ d) ++ "/Unnamed.png") = true := by
    simp [pyExists, pyExistsL]
  have hsplit' : pySplit (("/data/AB/3/A_" ++ d) ++ "/Unnamed.png")
      = ("/data/AB/3/A_" ++ d, "Unnamed.png") := by
    rw [← sep_merge ("/data/AB/3/A_" ++ d)
      (by rfl : ("/" : String) ++ "Unnamed.png" = "/Unnamed.png")]
    exact pySplit_append _ _ (by decide) (D_has_nonslash d) (D_getLast d hd)
  have hse : pySplitExt "Unnamed.png" = ("Unnamed", ".png") := by decide
  have hre : reGroupMatch "Unnamed" = none := by decide
  have hcand : mkCand ("/data/AB/3/A_" ++ d) "Unnamed" ".png" 1
      = ("/data/AB/3/A_" ++ d) ++ "/Unnamed(1).png" := by
    show pyJoin2 (pyJoin2 "/" ("/data/AB/3/A_" ++ d))
        ("Unnamed" ++ "(" ++ natStr 1 ++ ")" ++ ".png") = _
    rw [show ("Unnamed" : String) ++ "(" ++ natStr 1 ++ ")" ++ ".png"
          = "Unnamed(1).png" from rfl]
    rw [pyJoin2_abs (sws_D d), pyJoin2_sep (by decide) (D_ne_empty d) (ews_D d hd)]
    exact sep_merge _ rfl
  have hnm : pyExistsL [("/data/AB/3/A_" ++ d) ++ "/Unnamed.png"]
      (("/data/AB/3/A_" ++ d) ++ "/Unnamed(1).png") = false := by
    simp only [pyExistsL, List.mem_singleton, decide_eq_false_iff_not]
    exact strAppend_ne _ (by decide)
  have hloop : captureLoop [("/data/AB/3/A_" ++ d) ++ "/Unnamed.png"]
      ("/data/AB/3/A_" ++ d) "Unnamed" ".png"
      ([("/data/AB/3/A_" ++ d) ++ "/Unnamed.png"].length + 1)
      (("/data/AB/3/A_" ++ d) ++ "/Unnamed(1).png") 1
      = ("/data/AB/3/A_" ++ d) ++ "/Unnamed(1).png" := by
    rw [captureLoop, if_neg (by rw [hnm]; exact Bool.false_ne_true)]
  unfold make_filepath_unique
  rw [if_pos hex]
  simp only [hsplit', hse, hre, hcand, hloop, setFilepath]

theorem pySplit_P (d : String) (hd : ∀ c ∈ d.data, c ≠ '/') :
    pySplit (("/data/AB/3/A_" ++ d) ++ "/Unnamed.png")
      = ("/data/AB/3/A_" ++ d, "Unnamed.png") := by
  rw [← sep_merge ("/data/AB/3/A_" ++ d)
    (by rfl : ("/" : String) ++ "Unnamed.png" = "/Unnamed.png")]
  exact pySplit_append _ _ (by decide) (D_has_nonslash d) (D_getLast d hd)

theorem pySplit_Q (d : String) (hd : ∀ c ∈ d.data, c ≠ '/') :
    pySplit (("/data/AB/3/A_" ++ d) ++ "/Unnamed(1).png")
      = ("/data/AB/3/A_" ++ d, "Unnamed(1).png") := by
  rw [← sep_merge ("/data/AB/3/A_" ++ d)
    (by rfl : ("/" : String) ++ "Unnamed(1).png" = "/Unnamed(1).png")]
  exact pySplit_append _ _ (by decide) (D_has_nonslash d) (D_getLast d hd)

/-- `update` on a fresh filesystem: the canonical path comes out, the
directory has exactly the components `/data / AB / 3 / A_<date>`, and the
class defaults are re-derived unchanged. -/
theorem update_fresh_D (d : String) (hd : ∀ c ∈ d.data, c ≠ '/')
    (cp cf df : String) :
    picPathUpdate "AB" "3" "A" "Unnamed" ".png" "/data" d ⟨[], []⟩
        ⟨cp, cf, "Unnamed", df⟩
      = (⟨"Unnamed", ".png", "Unnamed.png", "/data/AB/3/A_" ++ d,
           ("/data/AB/3/A_" ++ d) ++ "/Unnamed.png"⟩,
         ⟨("/data/AB/3/A_" ++ d) ++ "/Unnamed.png", "Unnamed.png",
           "Unnamed", "Unnamed.png"⟩) := by
  have hA : ("A" : String) ++ "_" ++ d = "A_" ++ d := by
    rw [show ("A" : String) ++ "_" = "A_" from rfl]
  have hfn : ("Unnamed" : String) ++ ".png" = "Unnamed.png" := rfl
  have hdir := dir_D d
  have hfp := join_D d hd "Unnamed.png" "/Unnamed.png" (by decide) (by rfl)
  have hm := mfu_of_not_mem ⟨[], []⟩
    ⟨"Unnamed", ".png", "Unnamed.png", "/data/AB/3/A_" ++ d,
      ("/data/AB/3/A_" ++ d) ++ "/Unnamed.png"⟩
    ⟨cp, cf, "Unnamed", df⟩ (by simp)
  have hse : pySplitExt "Unnamed.png" = ("Unnamed", ".png") := by decide
  simp [picPathUpdate, hA, hdir, hfn, hfp, hm, pySplit_P d hd, hse,
    setDirectory, setBasename, setFileext, setFilename, setFilepath]

/-- `update` after the canonical file has been created: the allocator
appends `(1)` and the object and class defaults absorb the new stem. -/
theorem update_collision_D (d : String) (hd : ∀ c ∈ d.data, c ≠ '/')
    (cp cf df : String) :
    picPathUpdate "AB" "3" "A" "Unnamed" ".png" "/data" d
        ⟨[("/data/AB/3/A_" ++ d) ++ "/Unnamed.png"], []⟩ ⟨cp, cf, "Unnamed", df⟩
      = (⟨"Unnamed(1)", ".png", "Unnamed(1).png", "/data/AB/3/A_" ++ d,
           ("/data/AB/3/A_" ++ d) ++ "/Unnamed(1).png"⟩,
         ⟨("/data/AB/3/A_" ++ d) ++ "/Unnamed(1).png", "Unnamed(1).png",
           "Unnamed(1)", "Unnamed(1).png"⟩) := by
  have hA : ("A" : String) ++ "_" ++ d = "A_" ++ d := by
    rw [show ("A" : String) ++ "_" = "A_" from rfl]
  have hfn : ("Unnamed" : String) ++ ".png" = "Unnamed.png" := rfl
  have hfn1 : ("Unnamed(1)" : String) ++ ".png" = "Unnamed(1).png" := rfl
  have hdir := dir_D d
  have hfp := join_D d hd "Unnamed.png" "/Unnamed.png" (by decide) (by rfl)
  have hfp1 := join_D d hd "Unnamed(1).png" "/Unnamed(1).png" (by decide) (by rfl)
  have hm := mfu_collision_D d hd ⟨cp, cf, "Unnamed", df⟩
  have hse : pySplitExt "Unnamed.png" = ("Unnamed", ".png") := by decide
  have hse1 : pySplitExt "Unnamed(1).png" = ("Unnamed(1)", ".png") := by decide
  simp [picPathUpdate, hA, hdir, hfn, hfn1, hfp, hfp1, hm, pySplit_Q d hd,
    hse, hse1, setDirectory, setBasename, setFileext, setFilename, setFilepath]

/-- C3 counterexample: for the claimed inputs (initials `AB`, experiment
`3`, batch `A`, base `Unnamed`, extension `.png`, root `/data`, with no
pre-existing files), `PicPath.__init__` — one of the two constructors the
claim covers — produces `/data/AB/3/RawPhotos/A_<today>/Unnamed.png`: the
directory carries an extra `RawPhotos` component, so it is not exactly
`root_dir/initials/experiment_id/batch_id_date` and the allocated path is
not `/data/AB/3/A_<today>/Unnamed.png`. -/
theorem C3_counterexample :
    (picPathInit "AB" "3" "A" "Unnamed" ".png" "/data" "2026-10-12" ⟨[], []⟩
        ⟨"", "", "Unnamed", ""⟩).1.filepath
      = "/data/AB/3/RawPhotos/A_2026-10-12/Unnamed.png"
    ∧ (picPathInit "AB" "3" "A" "Unnamed" ".png" "/data" "2026-10-12" ⟨[], []⟩
        ⟨"", "", "Unnamed", ""⟩).1.filepath
      ≠ "/data/AB/3/A_2026-10-12/Unnamed.png"
    ∧ (picPathInit "AB" "3" "A" "Unnamed" ".png" "/data" "2026-10-12" ⟨[], []⟩
        ⟨"", "", "Unnamed", ""⟩).1.directory
      = "/data/AB/3/RawPhotos/A_2026-10-12" := by
  refine ⟨by decide, by decide, by decide⟩

/-- C3 amended: the claimed end-to-end behaviour holds of `PicPath.update`
(the directory is exactly `root/initials/experiment/batch_date`, with no
extra components): with no pre-existing files the allocated path is
`/data/AB/3/A_<today>/Unnamed.png`, the class default basename is
re-derived unchanged, and re-allocating with the same inputs after the
file has been created yields `/data/AB/3/A_<today>/Unnamed(1).png`.
(`PicPath.__init__` instead inserts `RawPhotos` between the experiment and
batch components.) -/
theorem C3_update_scenario (d : String) (hd : ∀ c ∈ d.data, c ≠ '/')
    (cv : ClassVars) (hcv : cv.default_basename = "Unnamed") :
    (picPathUpdate "AB" "3" "A" "Unnamed" ".png" "/data" d ⟨[], []⟩ cv).1.filepath
      = "/data/AB/3/A_" ++ d ++ "/Unnamed.png"
    ∧ (picPathUpdate "AB" "3" "A" "Unnamed" ".png" "/data" d
          ⟨[], []⟩ cv).2.default_basename = "Unnamed"
    ∧ (picPathUpdate "AB" "3" "A" "Unnamed" ".png" "/data" d
          ⟨["/data/AB/3/A_" ++ d ++ "/Unnamed.png"], []⟩ cv).1.filepath
      = "/data/AB/3/A_" ++ d ++ "/Unnamed(1).png" := by
  obtain ⟨cp, cf, db, df⟩ := cv
  have hdb : db = "Unnamed" := hcv
  subst hdb
  refine ⟨?_, ?_, ?_⟩
  · rw [update_fresh_D d hd cp cf df]
  · rw [update_fresh_D d hd cp cf df]
  · rw [update_collision_D d hd cp cf df]

/-- C3 witness: the amended scenario evaluated at the concrete date
`2026-10-12`. -/
theorem C3_witness :
    (∀ c ∈ ("2026-10-12" : String).data, c ≠ '/')
    ∧ (picPathUpdate "AB" "3" "A" "Unnamed" ".png" "/data" "2026-10-12" ⟨[], []⟩
        ⟨"", "", "Unnamed", ""⟩).1.filepath
      = "/data/AB/3/A_" ++ "2026-10-12" ++ "/Unnamed.png" :=
  ⟨by decide, (C3_update_scenario "2026-10-12" (by decide)
    ⟨"", "", "Unnamed", ""⟩ (by decide)).1⟩

/-- C2 witness: the monotonicity statement evaluated at the filesystem
holding exactly `sample(2).png`. -/
theorem C2_witness :
    "/d/sample(2).png" ∈ (FS.mk ["/d/sample(2).png"] []).present
      ∧ (make_filepath_unique (FS.mk ["/d/sample(2).png"] [])
          ⟨"sample(2)", ".png", "sample(2).png", "/d", "/d/sample(2).png"⟩
          ⟨"", "", "u", ""⟩).2 ≠ "/d/sample(1).png" :=
  ⟨by decide, (C2_search_monotonic_from_parsed_index
    (FS.mk ["/d/sample(2).png"] []) (by decide)).1⟩
